import Mathlib

/-!
# DevReview — verification of the analysis/scoring/decision pipeline

Shallow embedding of the DevReview static-analysis engine:
the score aggregator (server `src/scorer/aggregator.js` and browser
`client/src/analysis/aggregator.browser.js`), the review-decision engine
(`src/decision/reviewDecision.js`), the Review Cost Index engine
(`src/decision/reviewCostIndex.js`), the verdict engine
(`client/src/analysis/verdictEngine` portion of the browser rules), the
complexity penalty rule (`analysis/rules/complexity.browser.js`), the
security detectors' issue emission shapes, and the core engine wrapper
(`analyze`).

Modelling conventions:
- JavaScript numbers are modelled by `Int` where the program only ever
  holds integers, and by `Rat` where fractional intermediate values occur
  (the RCI weights and averaging).  `Math.round` is `jsRound`
  (round half toward positive infinity, which is JS semantics).  All
  double computations performed by the program on the inputs reachable
  here were checked to agree with exact rational arithmetic.
- The Babel parser and the AST traversals are host-library black boxes;
  functions that consume their outputs are embedded as functions of those
  outputs (a parse outcome, the per-function complexities, the issue
  lists the detectors emit).
-/

namespace DevReview

/-- JS `Math.round`: round to nearest, halves toward positive infinity. -/
def jsRound (q : ℚ) : ℤ := ⌊q + 1/2⌋

/-- Does the character list `s` start with `sub`?
Models the anchored comparison used by JS substring search. -/
def charsStartWith : List Char → List Char → Bool
  | [], _ => true
  | _ :: _, [] => false
  | a :: sub, b :: s => a == b && charsStartWith sub s

/-- Does `sub` occur contiguously inside `s`? -/
def charsContain (sub : List Char) : List Char → Bool
  | [] => sub.isEmpty
  | c :: rest => charsStartWith sub (c :: rest) || charsContain sub rest

/-- JS `String.prototype.includes`. -/
def jsIncludes (s sub : String) : Bool := charsContain sub.data s.data

/-- JS `String.prototype.toLowerCase`, faithful on the ASCII strings the
pipeline compares. -/
def jsToLower (s : String) : String := ⟨s.data.map Char.toLower⟩

/-- JS `Array.prototype.join(sep)`. -/
def joinSep (sep : String) : List String → String
  | [] => ""
  | [x] => x
  | x :: y :: xs => x ++ sep ++ joinSep sep (y :: xs)

/-- Severity tag attached (only) to security issues. -/
inductive Severity
  | CRITICAL
  | HIGH
  | MEDIUM
deriving DecidableEq, Repr

/-- An issue emitted by a rule detector: `{ penalty, comment, severity? }`.
The server-side detectors never set `severity` (modelled as `none`). -/
structure Issue where
  penalty : ℤ
  comment : String
  severity : Option Severity := none
deriving DecidableEq, Repr

/-- A category score: `{ score, comments }`. -/
structure CategoryScore where
  score : ℤ
  comments : List String
deriving DecidableEq, Repr

/-- `aggregateCategory` from the aggregator (identical in the server and
browser copies): subtract the summed penalties from the maximum score,
floor at zero, and keep the comments in emission order. -/
def aggregateCategory (maxScore : ℤ) (issues : List Issue) : CategoryScore :=
  let totalPenalty := (issues.map Issue.penalty).sum
  { score := max 0 (maxScore - totalPenalty)
    comments := issues.map Issue.comment }

/-! ## Review Decision Engine (`src/decision/reviewDecision.js`) -/

/-- The three readiness decisions (`DECISIONS`). -/
inductive Decision
  | NOT_READY_FOR_REVIEW
  | NEEDS_REFACTOR
  | READY_FOR_HUMAN_REVIEW
deriving DecidableEq, Repr

/-- `THRESHOLDS.REJECT_TOTAL`. -/
def REJECT_TOTAL : ℤ := 65

/-- `THRESHOLDS.REJECT_CATEGORY`. -/
def REJECT_CATEGORY : ℤ := 10

/-- `THRESHOLDS.REFACTOR_MAX`. -/
def REFACTOR_MAX : ℤ := 80

/-- `CRITICAL_SECURITY_PATTERNS`. -/
def CRITICAL_SECURITY_PATTERNS : List String :=
  ["eval", "Function()", "child_process", "hardcoded secret"]

/-- `checkCriticalDeductions`: does any security comment contain, after
lower-casing both sides, one of the critical patterns? -/
def checkCriticalDeductions (comments : List String) : Bool :=
  let lowerComments := comments.map jsToLower
  CRITICAL_SECURITY_PATTERNS.any fun pat =>
    lowerComments.any fun comment => jsIncludes comment (jsToLower pat)

/-- Input record of `determineDecision` (the `scores` object built by the
server aggregator). -/
structure Scores where
  readability : CategoryScore
  complexity : CategoryScore
  edgeCases : CategoryScore
  security : CategoryScore
  totalScore : ℤ
deriving DecidableEq, Repr

/-- The `decisionDetails` record. -/
structure DecisionDetails where
  totalScore : ℤ
  categoryScores : List (String × ℤ)
  failedCategories : List String
  hasCriticalDeductions : Bool
deriving DecidableEq, Repr

/-- Return value of `determineDecision`. -/
structure DecisionResult where
  decision : Decision
  decisionReason : String
  decisionDetails : DecisionDetails
deriving DecidableEq, Repr

/-- `buildRejectReason`: the `reasons` entries joined by `". "` plus the
fixed closing sentence.  `failed` carries the failing categories with
their scores, in `Object.entries` order. -/
def buildRejectReason (totalScore : ℤ) (failed : List (String × ℤ)) : String :=
  let reasons : List String :=
    (if totalScore < REJECT_TOTAL then
      ["Total score " ++ toString totalScore ++ " is below minimum threshold (" ++
        toString REJECT_TOTAL ++ ")"]
    else []) ++
    (if failed.isEmpty then []
    else
      ["Critical deficiencies in: " ++
        joinSep ", " (failed.map fun p => p.1 ++ ": " ++ toString p.2) ++
        " (minimum: " ++ toString REJECT_CATEGORY ++ ")"])
  joinSep ". " reasons ++ ". Code requires significant improvements before review."

/-- `buildRefactorReason`. -/
def buildRefactorReason (totalScore : ℤ) : String :=
  let gap := REFACTOR_MAX - totalScore
  "Total score " ++ toString totalScore ++ " indicates code needs refactoring (" ++
    toString gap ++ " points below optimal). " ++
    "Address flagged issues to improve maintainability before human review."

/-- First entry attaining the minimal value.  This is `sorted[0]` of the
stable ascending sort used in `buildReadyReason`, and also the result of
the `reduce` in the verdict engine's `findWeakestCategory`. -/
def firstMinBy : List (String × ℤ) → Option (String × ℤ)
  | [] => none
  | x :: xs => some (xs.foldl (fun m c => if c.2 < m.2 then c else m) x)

/-- `buildReadyReason`: the base sentence, plus an attention note when the
weakest category scores below 20.  (The category list is always the four
entries, so the `none` branch is unreachable.) -/
def buildReadyReason (totalScore : ℤ) (categoryScores : List (String × ℤ)) : String :=
  let base := "Code quality score " ++ toString totalScore ++
    "/100 meets standards for human review."
  match firstMinBy categoryScores with
  | none => base
  | some lowest =>
    if lowest.2 < 20 then
      base ++ " Reviewer should pay attention to " ++ lowest.1 ++ " (" ++
        toString lowest.2 ++ "/25)."
    else base

/-- `determineDecision`: the ordered three-rule classifier. -/
def determineDecision (scores : Scores) : DecisionResult :=
  let categoryScores : List (String × ℤ) :=
    [("readability", scores.readability.score),
     ("complexity", scores.complexity.score),
     ("edgeCases", scores.edgeCases.score),
     ("security", scores.security.score)]
  let failed := categoryScores.filter fun p => p.2 < REJECT_CATEGORY
  let hasCritical := checkCriticalDeductions scores.security.comments
  let details : DecisionDetails :=
    ⟨scores.totalScore, categoryScores, failed.map Prod.fst, hasCritical⟩
  if scores.totalScore < REJECT_TOTAL || !failed.isEmpty then
    ⟨.NOT_READY_FOR_REVIEW, buildRejectReason scores.totalScore failed, details⟩
  else if scores.totalScore ≤ REFACTOR_MAX then
    ⟨.NEEDS_REFACTOR, buildRefactorReason scores.totalScore, details⟩
  else if hasCritical then
    ⟨.NEEDS_REFACTOR,
      "Total score " ++ toString scores.totalScore ++
        " is good, but critical security issues detected. " ++
        "Address security concerns before human review.",
      details⟩
  else
    ⟨.READY_FOR_HUMAN_REVIEW, buildReadyReason scores.totalScore categoryScores, details⟩

/-! ## Review Cost Index Engine (`src/decision/reviewCostIndex.js`) -/

/-- The structural metrics record produced by `extractMetrics`. -/
structure Metrics where
  maxNestingDepth : ℤ
  maxCyclomaticComplexity : ℤ
  maxFunctionLength : ℤ
  totalFunctions : ℤ
deriving DecidableEq, Repr

/-- One entry of the RCI `factors` map. -/
structure FactorInfo where
  rawValue : ℤ
  normalized : ℤ
  weight : ℚ
  contribution : ℤ
deriving DecidableEq, Repr

/-- Return value of `calculateRCI`. -/
structure RCIResult where
  level : String
  score : ℤ
  factors : List (String × FactorInfo)
  humanExplanation : String
deriving DecidableEq, Repr

/-- `RCI_WEIGHTS`, in `Object.entries` order. -/
def RCI_WEIGHTS : List (String × ℚ) :=
  [("nestingDepth", 1/4),
   ("cyclomaticComplexity", 3/10),
   ("functionLength", 1/5),
   ("securityDeductions", 1/4)]

/-- `normalizeMetric`: clamp to the band, linear position scaled to 100
and rounded in between. -/
def normalizeMetric (value mn mx : ℤ) : ℤ :=
  if value ≤ mn then 0
  else if value ≥ mx then 100
  else jsRound ((((value : ℚ) - (mn : ℚ)) / ((mx : ℚ) - (mn : ℚ))) * 100)

/-- `determineLevel`, reduced to the level's label (the only field of the
`RCI_LEVELS` record that the result exposes). -/
def determineLevel (score : ℤ) : String :=
  if score ≤ 33 then "LOW"
  else if score ≤ 66 then "MEDIUM"
  else "HIGH"

/-- `formatFactorName`. -/
def formatFactorName (factor : String) : String :=
  if factor = "nestingDepth" then "deep nesting"
  else if factor = "cyclomaticComplexity" then "high cyclomatic complexity"
  else if factor = "functionLength" then "long functions"
  else if factor = "securityDeductions" then "security concerns"
  else factor

/-- First entry attaining the maximal contribution: `sortedFactors[0]`
of the stable descending sort in `generateExplanation`. -/
def firstMaxFactor : List (String × FactorInfo) → Option (String × FactorInfo)
  | [] => none
  | x :: xs => some (xs.foldl (fun m c => if m.2.contribution < c.2.contribution then c else m) x)

/-- `generateExplanation` (the `factors` list is always the four entries,
so the `none` branch is unreachable). -/
def generateExplanation (levelLabel : String) (factors : List (String × FactorInfo))
    (totalScore : ℤ) : String :=
  match firstMaxFactor factors with
  | none => ""
  | some top =>
    let topName := formatFactorName top.1
    if levelLabel = "LOW" then
      "This code is straightforward to review (RCI: " ++ toString totalScore ++ "). " ++
        "Clear structure and manageable complexity allow single-pass review."
    else if levelLabel = "MEDIUM" then
      "This code requires moderate review effort (RCI: " ++ toString totalScore ++ "). " ++
        "Main contributor: " ++ topName ++ ". " ++
        "Reviewer may need to re-read sections for full understanding."
    else
      "This code demands significant review effort (RCI: " ++ toString totalScore ++ "). " ++
        "Primary concern: " ++ topName ++ " (" ++ toString top.2.contribution ++ " points). " ++
        "Expect detailed commenting or potential rejection."

/-- `calculateRCI`.  The JS iterates over the four `RCI_WEIGHTS` entries
in `Object.entries` order; the loop is unrolled over that constant
four-entry table (weights 0.25, 0.30, 0.20, 0.25 as exact rationals). -/
def calculateRCI (metrics : Metrics) (securityScore : ℤ) : RCIResult :=
  let securityDeductions := 25 - securityScore
  let nNest := normalizeMetric metrics.maxNestingDepth 0 8
  let nCyc := normalizeMetric metrics.maxCyclomaticComplexity 1 25
  let nLen := normalizeMetric metrics.maxFunctionLength 0 100
  let nSec := normalizeMetric securityDeductions 0 25
  let cNest := jsRound ((nNest : ℚ) * (1/4))
  let cCyc := jsRound ((nCyc : ℚ) * (3/10))
  let cLen := jsRound ((nLen : ℚ) * (1/5))
  let cSec := jsRound ((nSec : ℚ) * (1/4))
  let factors : List (String × FactorInfo) :=
    [("nestingDepth", ⟨metrics.maxNestingDepth, nNest, 1/4, cNest⟩),
     ("cyclomaticComplexity", ⟨metrics.maxCyclomaticComplexity, nCyc, 3/10, cCyc⟩),
     ("functionLength", ⟨metrics.maxFunctionLength, nLen, 1/5, cLen⟩),
     ("securityDeductions", ⟨securityDeductions, nSec, 1/4, cSec⟩)]
  let rawTotal := cNest + cCyc + cLen + cSec
  let totalScore := min 100 (max 0 rawTotal)
  let level := determineLevel totalScore
  { level := level
    score := totalScore
    factors := factors
    humanExplanation := generateExplanation level factors totalScore }

/-! ## Server aggregator (`src/scorer/aggregator.js`) -/

/-- Each rule module exports `MAX_SCORE = 25` (readability, complexity,
edge cases, security alike). -/
def MAX_SCORE : ℤ := 25

/-- The four detectors' outputs for a successfully parsed tree.  The AST
traversals themselves are host-library black boxes; the aggregator is a
function of the issue lists they emit. -/
structure DetectorIssues where
  readability : List Issue
  complexity : List Issue
  edgeCases : List Issue
  security : List Issue
deriving DecidableEq, Repr

/-- Outcome of `parseCode` on the server: a parsed tree (represented by
what the pipeline extracts from it — the detector outputs and the
structural metrics) or a syntax error message. -/
inductive ParseOutcome
  | success (issues : DetectorIssues) (metrics : Metrics)
  | failure (errMsg : String)
deriving DecidableEq, Repr

/-- `parseCode` wraps the raw Babel message on failure:
`error = "Syntax Error: " + err.message`. -/
def parseCodeError (babelMsg : String) : String := "Syntax Error: " ++ babelMsg

/-- The server `analyzeCode` result record.  The syntax-error branch
returns no `decisionDetails` and no `metrics` (modelled by `none`) and the
success branch returns no `error`.  Note there is no `criticalIssues`
field in the server result. -/
structure ServerAnalysisResult where
  readability : CategoryScore
  complexity : CategoryScore
  edgeCases : CategoryScore
  security : CategoryScore
  totalScore : ℤ
  decision : Decision
  decisionReason : String
  decisionDetails : Option DecisionDetails
  reviewCost : RCIResult
  metrics : Option Metrics
  error : Option String
deriving DecidableEq, Repr

/-- Server `analyzeCode` as a function of the parse outcome. -/
def analyzeCode : ParseOutcome → ServerAnalysisResult
  | .failure err =>
    { readability := ⟨0, ["Unable to analyze: code has syntax errors"]⟩
      complexity := ⟨0, ["Unable to analyze: code has syntax errors"]⟩
      edgeCases := ⟨0, ["Unable to analyze: code has syntax errors"]⟩
      security := ⟨0, ["Unable to analyze: code has syntax errors"]⟩
      totalScore := 0
      decision := .NOT_READY_FOR_REVIEW
      decisionReason := "Code has syntax errors and cannot be analyzed."
      decisionDetails := none
      reviewCost :=
        ⟨"HIGH", 100, [], "Code cannot be parsed due to syntax errors."⟩
      metrics := none
      error := some err }
  | .success d m =>
    let readability := aggregateCategory MAX_SCORE d.readability
    let complexity := aggregateCategory MAX_SCORE d.complexity
    let edgeCases := aggregateCategory MAX_SCORE d.edgeCases
    let security := aggregateCategory MAX_SCORE d.security
    let totalScore :=
      readability.score + complexity.score + edgeCases.score + security.score
    let dec := determineDecision ⟨readability, complexity, edgeCases, security, totalScore⟩
    { readability := readability
      complexity := complexity
      edgeCases := edgeCases
      security := security
      totalScore := totalScore
      decision := dec.decision
      decisionReason := dec.decisionReason
      decisionDetails := some dec.decisionDetails
      reviewCost := calculateRCI m security.score
      metrics := some m
      error := none }

/-! ## Core engine wrapper (`analyze`) -/

/-- The dynamically-typed argument of `analyze`: a string, or any
non-string value. -/
inductive JSInput
  | string (s : String)
  | nonString
deriving DecidableEq, Repr

/-- Whitespace for JS `String.prototype.trim` (ASCII portion). -/
def isJsSpace (c : Char) : Bool :=
  c == ' ' || c == '\t' || c == '\n' || c == '\r' || c == '\x0b' || c == '\x0c'

/-- JS `String.prototype.trim`. -/
def jsTrim (s : String) : String :=
  ⟨((s.data.dropWhile isJsSpace).reverse.dropWhile isJsSpace).reverse⟩

/-- `analyze` from the core engine wrapper: validates the input, then
calls the aggregator.  The aggregator call is abstracted as `core`
(parsing happens inside it), so the validation path is visibly
independent of it; a thrown `Error` is an `Except.error` carrying the
message. -/
def analyze (core : String → ServerAnalysisResult) (input : JSInput) :
    Except String ServerAnalysisResult :=
  match input with
  | .nonString => .error "Invalid input: \"code\" must be a string"
  | .string code =>
    if (jsTrim code).length = 0 then
      .error "Invalid input: \"code\" cannot be empty"
    else
      .ok (core code)

/-! ## Browser aggregator (`client/src/analysis/aggregator.browser.js`) -/

/-- Outcome of the browser `parseCode` (no metrics extraction in the
browser pipeline). -/
inductive BrowserParseOutcome
  | success (issues : DetectorIssues)
  | failure (errMsg : String)
deriving DecidableEq, Repr

/-- `extractCriticalIssues`: keep only the issues severity-tagged
CRITICAL. -/
def extractCriticalIssues (securityIssues : List Issue) : List Issue :=
  securityIssues.filter fun i => i.severity == some Severity.CRITICAL

/-- The browser `analyzeCode` result record. -/
structure BrowserAnalysisResult where
  filename : String
  readability : CategoryScore
  complexity : CategoryScore
  edgeCases : CategoryScore
  security : CategoryScore
  totalScore : ℤ
  criticalIssues : List Issue
  error : Option String
deriving DecidableEq, Repr

/-- Browser `analyzeCode` as a function of the parse outcome. -/
def analyzeCodeBrowser (outcome : BrowserParseOutcome) (filename : String) :
    BrowserAnalysisResult :=
  match outcome with
  | .failure err =>
    { filename := filename
      readability := ⟨0, ["Unable to analyze: code has syntax errors"]⟩
      complexity := ⟨0, ["Unable to analyze: code has syntax errors"]⟩
      edgeCases := ⟨0, ["Unable to analyze: code has syntax errors"]⟩
      security := ⟨0, ["Unable to analyze: code has syntax errors"]⟩
      totalScore := 0
      criticalIssues := []
      error := some err }
  | .success d =>
    let criticalIssues := extractCriticalIssues d.security
    let readability := aggregateCategory MAX_SCORE d.readability
    let complexity := aggregateCategory MAX_SCORE d.complexity
    let edgeCases := aggregateCategory MAX_SCORE d.edgeCases
    let security := aggregateCategory MAX_SCORE d.security
    { filename := filename
      readability := readability
      complexity := complexity
      edgeCases := edgeCases
      security := security
      totalScore :=
        readability.score + complexity.score + edgeCases.score + security.score
      criticalIssues := criticalIssues
      error := none }

/-- A critical issue annotated with its originating file, as flattened by
`analyzeFiles` (`{...issue, filename}`). -/
structure FileCriticalIssue where
  penalty : ℤ
  comment : String
  severity : Option Severity
  filename : String
deriving DecidableEq, Repr

/-- The `aggregated` record built by `analyzeFiles`. -/
structure AggregatedScores where
  readability : CategoryScore
  complexity : CategoryScore
  edgeCases : CategoryScore
  security : CategoryScore
  totalScore : ℤ
deriving DecidableEq, Repr

/-- Return value of `analyzeFiles`. -/
structure FilesAnalysis where
  files : List BrowserAnalysisResult
  aggregated : AggregatedScores
  criticalIssues : List FileCriticalIssue
deriving DecidableEq, Repr

/-- `analyzeFiles`: run the per-file pipeline, sum scores and prefix
comments per file, flatten critical issues with their filenames, then —
only when the file list is non-empty — replace each category sum by its
rounded mean and the total by the sum of the four rounded means. -/
def analyzeFiles (files : List (String × BrowserParseOutcome)) : FilesAnalysis :=
  let results := files.map fun f => analyzeCodeBrowser f.2 f.1
  let totalFiles : ℤ := results.length
  let sumOf : (BrowserAnalysisResult → CategoryScore) → ℤ := fun proj =>
    (results.map fun r => (proj r).score).sum
  let commentsOf : (BrowserAnalysisResult → CategoryScore) → List String := fun proj =>
    results.flatMap fun r =>
      (proj r).comments.map fun c => "[" ++ r.filename ++ "] " ++ c
  let allCriticalIssues : List FileCriticalIssue :=
    results.flatMap fun r =>
      r.criticalIssues.map fun i => ⟨i.penalty, i.comment, i.severity, r.filename⟩
  let sumR := sumOf (·.readability)
  let sumC := sumOf (·.complexity)
  let sumE := sumOf (·.edgeCases)
  let sumS := sumOf (·.security)
  if 0 < totalFiles then
    let avg : ℤ → ℤ := fun s => jsRound ((s : ℚ) / (totalFiles : ℚ))
    let aR := avg sumR
    let aC := avg sumC
    let aE := avg sumE
    let aS := avg sumS
    { files := results
      aggregated :=
        ⟨⟨aR, commentsOf (·.readability)⟩, ⟨aC, commentsOf (·.complexity)⟩,
          ⟨aE, commentsOf (·.edgeCases)⟩, ⟨aS, commentsOf (·.security)⟩,
          aR + aC + aE + aS⟩
      criticalIssues := allCriticalIssues }
  else
    { files := results
      aggregated :=
        ⟨⟨sumR, commentsOf (·.readability)⟩, ⟨sumC, commentsOf (·.complexity)⟩,
          ⟨sumE, commentsOf (·.edgeCases)⟩, ⟨sumS, commentsOf (·.security)⟩, 0⟩
      criticalIssues := allCriticalIssues }

/-! ## Verdict Engine (`client/src/analysis/verdictEngine.js`) -/

/-- The four PR-style verdicts (`VERDICTS`). -/
inductive Verdict
  | APPROVE
  | APPROVE_WITH_NITS
  | REQUEST_CHANGES
  | BLOCK_MERGE
deriving DecidableEq, Repr

/-- The string constant each verdict interpolates as. -/
def verdictName : Verdict → String
  | .APPROVE => "APPROVE"
  | .APPROVE_WITH_NITS => "APPROVE_WITH_NITS"
  | .REQUEST_CHANGES => "REQUEST_CHANGES"
  | .BLOCK_MERGE => "BLOCK_MERGE"

/-- `VERDICT_CONFIG[...].description`. -/
def verdictDescription : Verdict → String
  | .APPROVE => "Code quality meets standards. Ready to merge."
  | .APPROVE_WITH_NITS => "Minor issues found. Can proceed but consider addressing."
  | .REQUEST_CHANGES => "Issues need attention before merging."
  | .BLOCK_MERGE => "Critical issues detected. Must be resolved."

/-- A critical issue as seen by `determineVerdict`: flattened multi-file
issues carry a filename, single-file ones do not. -/
structure CriticalIssue where
  penalty : ℤ
  comment : String
  severity : Option Severity
  filename : Option String := none
deriving DecidableEq, Repr

/-- The four category scores `determineVerdict` reads off the optional
`aggregated` object. -/
structure AggregateView where
  readability : ℤ
  complexity : ℤ
  edgeCases : ℤ
  security : ℤ
deriving DecidableEq, Repr

/-- Input record of `determineVerdict`. -/
structure VerdictInput where
  totalScore : ℤ
  criticalIssues : List CriticalIssue
  aggregated : Option AggregateView
deriving DecidableEq, Repr

/-- The override branch's `details.criticalIssues` entries and the
`details` record of `determineVerdict` (a tagged variant: the override
branch carries the count and per-issue file/comment pairs and has
`wasOverridden = true`; the scored branch has `wasOverridden = false` and
additionally echoes the constant thresholds table). -/
inductive VerdictDetails
  | overridden (scoreBasedVerdict : Verdict) (criticalIssueCount : ℕ)
      (criticalIssues : List (String × String))
  | scored (scoreBasedVerdict : Verdict)
deriving DecidableEq, Repr

/-- Return value of `determineVerdict`. -/
structure VerdictResult where
  verdict : Verdict
  explanation : String
  overrideReason : Option String
  details : VerdictDetails
deriving DecidableEq, Repr

/-- `getScoreBasedVerdict`: the pure score bands. -/
def getScoreBasedVerdict (totalScore : ℤ) : Verdict :=
  if totalScore ≥ 85 then .APPROVE
  else if totalScore ≥ 75 then .APPROVE_WITH_NITS
  else if totalScore ≥ 65 then .REQUEST_CHANGES
  else .BLOCK_MERGE

/-- The per-issue classification inside the override branch: first
matching substring of the comment wins. -/
def classifyCriticalComment (comment : String) : String :=
  if jsIncludes comment "eval" then "eval() usage"
  else if jsIncludes comment "Function()" then "Function() constructor"
  else if jsIncludes comment "child_process" then "child_process usage"
  else "critical security issue"

/-- `[...new Set(list)]`: deduplication preserving first occurrences. -/
def dedupFirst (l : List String) : List String :=
  l.foldl (fun acc x => if acc.contains x then acc else acc ++ [x]) []

/-- The `criticalTypes` list built in the override branch. -/
def criticalTypes (criticalIssues : List CriticalIssue) : List String :=
  dedupFirst (criticalIssues.map fun i => classifyCriticalComment i.comment)

/-- `findWeakestCategory` (the `reduce` keeps the first strict minimum). -/
def findWeakestCategory (agg : AggregateView) : Option (String × ℤ) :=
  firstMinBy
    [("readability", agg.readability), ("complexity", agg.complexity),
     ("edgeCases", agg.edgeCases), ("security", agg.security)]

/-- `findSignificantIssues`: category labels scoring below 15. -/
def findSignificantIssues (agg : AggregateView) : List String :=
  (if agg.readability < 15 then ["readability"] else []) ++
  (if agg.complexity < 15 then ["complexity"] else []) ++
  (if agg.edgeCases < 15 then ["edge case handling"] else []) ++
  (if agg.security < 15 then ["security"] else [])

/-- `buildExplanation`. -/
def buildExplanation (verdict : Verdict) (totalScore : ℤ)
    (aggregated : Option AggregateView) : String :=
  let base := "Score: " ++ toString totalScore ++ "/100 — Verdict: " ++ verdictName verdict
  match verdict with
  | .APPROVE => base ++ ". " ++ verdictDescription verdict
  | .APPROVE_WITH_NITS =>
    let withDesc := base ++ ". " ++ verdictDescription verdict
    match aggregated with
    | none => withDesc
    | some agg =>
      match findWeakestCategory agg with
      | none => withDesc
      | some weakest =>
        withDesc ++ " Pay attention to " ++ weakest.1 ++ " (" ++
          toString weakest.2 ++ "/25)."
  | .REQUEST_CHANGES =>
    let withDesc := base ++ ". " ++ verdictDescription verdict
    match aggregated with
    | none => withDesc
    | some agg =>
      let issues := findSignificantIssues agg
      if issues.isEmpty then withDesc
      else withDesc ++ " Focus on: " ++ joinSep ", " issues ++ "."
  | .BLOCK_MERGE =>
    base ++ ". Score is below minimum threshold (65). " ++ verdictDescription verdict

/-- JS `i.filename || 'unknown'`. -/
def filenameOrUnknown : Option String → String
  | none => "unknown"
  | some f => if f = "" then "unknown" else f

/-- `determineVerdict`: critical issues force `BLOCK_MERGE`, otherwise
the score bands decide. -/
def determineVerdict (input : VerdictInput) : VerdictResult :=
  if input.criticalIssues.isEmpty then
    let verdict := getScoreBasedVerdict input.totalScore
    { verdict := verdict
      explanation := buildExplanation verdict input.totalScore input.aggregated
      overrideReason := none
      details := .scored verdict }
  else
    { verdict := .BLOCK_MERGE
      explanation :=
        "Score: " ++ toString input.totalScore ++ "/100 — Verdict: BLOCK_MERGE"
      overrideReason :=
        some ("Critical security issues detected: " ++
          joinSep ", " (criticalTypes input.criticalIssues))
      details :=
        .overridden (getScoreBasedVerdict input.totalScore)
          input.criticalIssues.length
          (input.criticalIssues.map fun i => (filenameOrUnknown i.filename, i.comment)) }

/-! ## Complexity rule (`analysis/rules/complexity.browser.js`, identical
penalty logic in the server copy) -/

/-- What the traversal records per function: its display name (already
quoted by `getFunctionName`) and its cyclomatic complexity. -/
structure FunctionInfo where
  name : String
  complexity : ℤ
deriving DecidableEq, Repr

/-- `getComplexityPenalty`: the tiered, non-cumulative penalty. -/
def getComplexityPenalty (complexity : ℤ) : ℤ :=
  if complexity ≤ 5 then 0
  else if complexity ≤ 10 then 3
  else if complexity ≤ 15 then 6
  else if complexity ≤ 20 then 10
  else 15

/-- The issue pushed for one over-threshold function. -/
def complexityIssueFor (f : FunctionInfo) : Issue :=
  { penalty := getComplexityPenalty f.complexity
    comment := "Function " ++ f.name ++ " has cyclomatic complexity of " ++
      toString f.complexity ++ ". Consider simplifying control flow." }

/-- `analyzeComplexity` as a function of the traversal's findings: one
issue per function whose penalty is positive; with no functions at all,
the module-level complexity is penalized instead. -/
def analyzeComplexity (functions : List FunctionInfo) (globalComplexity : ℤ) :
    List Issue :=
  let issues := functions.filterMap fun f =>
    if getComplexityPenalty f.complexity > 0 then some (complexityIssueFor f) else none
  if functions.isEmpty then
    if getComplexityPenalty globalComplexity > 0 then
      [{ penalty := getComplexityPenalty globalComplexity
         comment := "Global code has cyclomatic complexity of " ++
           toString globalComplexity ++ ". Consider organizing into functions." }]
    else []
  else issues

/-! ## Security detectors: the shapes of the issues they emit

The detectors are AST traversals; what the claims need is the shape of
every issue they can push.  `ServerSecurityIssue` covers the server
detector (`src/rules/security.js`): each constructor is one `issues.push`
site, and none of them sets a `severity` field (`none`).  The browser
detector's push sites (`analysis/rules/security.browser.js`) all carry a
severity tag; the ones used here are given as plain constructors. -/

/-- Interpolation of `path.node.loc?.start.line`: a number, or the text
`undefined` when the node has no location. -/
def jsLineText : Option ℕ → String
  | some n => toString n
  | none => "undefined"

/-- The issues the server security detector can emit (one constructor per
push site in `src/rules/security.js`): penalty and comment only, never a
severity tag. -/
inductive ServerSecurityIssue : Issue → Prop
  | evalCall (name : String) (line : Option ℕ)
      (h : name = "eval" ∨ name = "Function") :
      ServerSecurityIssue
        ⟨8, "Dangerous '" ++ name ++ "()' usage detected at line " ++ jsLineText line ++
          ". This can execute arbitrary code and is a major security risk.", none⟩
  | newFunction (line : Option ℕ) :
      ServerSecurityIssue
        ⟨8, "Dangerous 'new Function()' usage detected at line " ++ jsLineText line ++
          ". This is equivalent to eval() and can execute arbitrary code.", none⟩
  | childProcess (name : String) (line : Option ℕ)
      (h : name ∈ ["exec", "execSync", "spawn", "spawnSync", "fork"]) :
      ServerSecurityIssue
        ⟨6, "Shell command execution via '" ++ name ++ "()' at line " ++ jsLineText line ++
          ". Ensure input is sanitized to prevent command injection.", none⟩
  | secretVariable (varName : String) (line : Option ℕ) :
      ServerSecurityIssue
        ⟨5, "Potential hardcoded secret in variable '" ++ varName ++ "' at line " ++
          jsLineText line ++ ". Use environment variables instead.", none⟩
  | apiKeyLiteral (line : Option ℕ) :
      ServerSecurityIssue
        ⟨5, "Potential hardcoded API key or token detected at line " ++ jsLineText line ++
          ". Use environment variables instead.", none⟩
  | templateInput (line : Option ℕ) :
      ServerSecurityIssue
        ⟨4, "User input interpolated in template at line " ++ jsLineText line ++
          ". Ensure proper sanitization to prevent injection attacks.", none⟩
  | sqlConcat (line : Option ℕ) :
      ServerSecurityIssue
        ⟨4, "Potential SQL injection: user input concatenated with SQL at line " ++
          jsLineText line ++ ". Use parameterized queries.", none⟩
  | htmlConcat (line : Option ℕ) :
      ServerSecurityIssue
        ⟨4, "Potential XSS: user input concatenated with HTML at line " ++
          jsLineText line ++ ". Sanitize output.", none⟩

/-- Browser security detector, direct `eval`/`Function` call site:
penalty 8, tagged CRITICAL. -/
def browserEvalIssue (name : String) (line : ℕ) : Issue :=
  ⟨8, "CRITICAL: " ++ name ++ "() usage detected at line " ++ toString line ++
    ". This allows arbitrary code execution and is a major security risk.",
    some .CRITICAL⟩

/-- Browser security detector, `child_process` method call site:
penalty 6, tagged CRITICAL. -/
def browserChildProcessIssue (method : String) (line : ℕ) : Issue :=
  ⟨6, "CRITICAL: child_process." ++ method ++ "() detected at line " ++ toString line ++
    ". Command injection risk if input is not sanitized.", some .CRITICAL⟩

/-- Browser security detector, hardcoded-secret variable site:
penalty 5, tagged HIGH. -/
def browserSecretIssue (varName : String) (line : ℕ) : Issue :=
  ⟨5, "Potential hardcoded secret in '" ++ varName ++ "' at line " ++ toString line ++
    ". Use environment variables instead.", some .HIGH⟩

/-! ## Substring lemmas for `jsIncludes` -/

theorem charsStartWith_append (sub s t : List Char)
    (h : charsStartWith sub s = true) : charsStartWith sub (s ++ t) = true := by
  induction sub generalizing s with
  | nil => simp [charsStartWith]
  | cons a as ih =>
    cases s with
    | nil => simp [charsStartWith] at h
    | cons b bs =>
      simp only [charsStartWith, Bool.and_eq_true] at h
      simp only [List.cons_append, charsStartWith, Bool.and_eq_true]
      exact ⟨h.1, ih bs h.2⟩

theorem charsStartWith_self (sub t : List Char) :
    charsStartWith sub (sub ++ t) = true := by
  induction sub with
  | nil => simp [charsStartWith]
  | cons a as ih => simp [charsStartWith, ih]

theorem charsStartWith_exists (sub s : List Char)
    (h : charsStartWith sub s = true) : ∃ t, s = sub ++ t := by
  induction sub generalizing s with
  | nil => exact ⟨s, rfl⟩
  | cons a as ih =>
    cases s with
    | nil => simp [charsStartWith] at h
    | cons b bs =>
      simp only [charsStartWith, Bool.and_eq_true, beq_iff_eq] at h
      obtain ⟨t, ht⟩ := ih bs h.2
      exact ⟨t, by simp [h.1.symm, ht]⟩

theorem charsContain_nil_sub (l : List Char) : charsContain [] l = true := by
  cases l <;> simp [charsContain, charsStartWith]

theorem charsContain_cons (sub : List Char) (c : Char) (l : List Char)
    (h : charsContain sub l = true) : charsContain sub (c :: l) = true := by
  simp only [charsContain, Bool.or_eq_true]
  exact Or.inr h

theorem charsContain_of_startsWith (sub s : List Char)
    (h : charsStartWith sub s = true) : charsContain sub s = true := by
  cases s with
  | nil =>
    cases sub with
    | nil => simp [charsContain]
    | cons a as => simp [charsStartWith] at h
  | cons b bs =>
    simp only [charsContain, Bool.or_eq_true]
    exact Or.inl h

theorem charsContain_append_right (sub s t : List Char)
    (h : charsContain sub t = true) : charsContain sub (s ++ t) = true := by
  induction s with
  | nil => simpa using h
  | cons c cs ih => exact charsContain_cons _ _ _ ih

theorem charsContain_append_left (sub s t : List Char)
    (h : charsContain sub s = true) : charsContain sub (s ++ t) = true := by
  induction s with
  | nil =>
    simp only [charsContain] at h
    simp only [List.nil_append]
    cases sub with
    | nil => exact charsContain_nil_sub t
    | cons a as => simp at h
  | cons c cs ih =>
    simp only [charsContain, Bool.or_eq_true] at h
    rcases h with h | h
    · exact charsContain_of_startsWith _ _ (by simpa using charsStartWith_append _ _ t h)
    · exact charsContain_cons _ _ _ (ih h)

theorem charsContain_self_append (sub t : List Char) :
    charsContain sub (sub ++ t) = true :=
  charsContain_of_startsWith _ _ (charsStartWith_self sub t)

theorem charsContain_exists (sub l : List Char)
    (h : charsContain sub l = true) : ∃ a b, l = a ++ sub ++ b := by
  induction l with
  | nil =>
    simp only [charsContain, List.isEmpty_iff] at h
    exact ⟨[], [], by simp [h]⟩
  | cons c cs ih =>
    simp only [charsContain, Bool.or_eq_true] at h
    rcases h with h | h
    · obtain ⟨t, ht⟩ := charsStartWith_exists _ _ h
      exact ⟨[], t, by simp [ht]⟩
    · obtain ⟨a, b, hab⟩ := ih h
      exact ⟨c :: a, b, by simp [hab]⟩

theorem charsContain_trans (x m l : List Char)
    (h₁ : charsContain x m = true) (h₂ : charsContain m l = true) :
    charsContain x l = true := by
  obtain ⟨a, b, hab⟩ := charsContain_exists _ _ h₂
  obtain ⟨c, d, hcd⟩ := charsContain_exists _ _ h₁
  subst hab
  rw [hcd]
  apply charsContain_append_left
  apply charsContain_append_right
  apply charsContain_append_left
  apply charsContain_append_right
  simpa using charsContain_self_append x []

theorem data_append (x y : String) : (x ++ y).data = x.data ++ y.data := by
  cases x; cases y; rfl

theorem jsIncludes_append_left (x y s : String)
    (h : jsIncludes x s = true) : jsIncludes (x ++ y) s = true := by
  simp only [jsIncludes, data_append]
  exact charsContain_append_left _ _ _ h

theorem jsIncludes_append_right (x y s : String)
    (h : jsIncludes y s = true) : jsIncludes (x ++ y) s = true := by
  simp only [jsIncludes, data_append]
  exact charsContain_append_right _ _ _ h

theorem jsIncludes_refl (s : String) : jsIncludes s s = true := by
  simpa using charsContain_self_append s.data []

theorem jsIncludes_self_append (s t : String) : jsIncludes (s ++ t) s = true := by
  simp only [jsIncludes, data_append]
  exact charsContain_self_append _ _

theorem jsIncludes_append_self (t s : String) : jsIncludes (t ++ s) s = true :=
  jsIncludes_append_right _ _ _ (jsIncludes_refl s)

theorem jsIncludes_trans (l m s : String)
    (h₁ : jsIncludes m s = true) (h₂ : jsIncludes l m = true) :
    jsIncludes l s = true :=
  charsContain_trans _ _ _ h₁ h₂

theorem mem_joinSep (sep : String) (l : List String) (x : String) (h : x ∈ l) :
    jsIncludes (joinSep sep l) x = true := by
  induction l with
  | nil => simp at h
  | cons a as ih =>
    cases as with
    | nil =>
      simp only [List.mem_singleton] at h
      simpa [joinSep, h] using jsIncludes_refl x
    | cons b bs =>
      rcases List.mem_cons.1 h with h | h
      · subst h
        simpa [joinSep] using
          jsIncludes_append_left _ _ _ (jsIncludes_append_left _ _ _ (jsIncludes_refl x))
      · simpa [joinSep] using jsIncludes_append_right _ _ _ (ih h)

/-! ## Helper lemmas on the aggregator -/

theorem aggregateCategory_score_nonneg (maxScore : ℤ) (issues : List Issue) :
    0 ≤ (aggregateCategory maxScore issues).score :=
  le_max_left 0 _

theorem aggregateCategory_score_le (maxScore : ℤ) (issues : List Issue)
    (hmax : 0 ≤ maxScore) (h : ∀ i ∈ issues, 0 ≤ i.penalty) :
    (aggregateCategory maxScore issues).score ≤ maxScore := by
  have hsum : 0 ≤ (issues.map Issue.penalty).sum := by
    apply List.sum_nonneg
    intro x hx
    obtain ⟨i, hi, rfl⟩ := List.mem_map.1 hx
    exact h i hi
  exact max_le hmax (by omega)

/-- C1: `aggregateCategory` computes `score = max(0, maxScore − Σ penalties)`
with the comments equal to the issues' comment strings in emission order;
consequently, on every successful parse (arbitrary detector outputs, whose
penalties are all nonnegative — every penalty constant in the rule modules
is positive), each category score of `analyzeCode` lies in [0, 25] and
`totalScore` is exactly the sum of the four category scores, hence lies in
[0, 100]. -/
theorem aggregateCategory_spec_and_analyzeCode_bounds
    (maxScore : ℤ) (issues : List Issue) (d : DetectorIssues) (m : Metrics)
    (hpen : ∀ i ∈ d.readability ++ d.complexity ++ d.edgeCases ++ d.security,
      0 ≤ i.penalty) :
    (aggregateCategory maxScore issues).score
        = max 0 (maxScore - (issues.map Issue.penalty).sum) ∧
    (aggregateCategory maxScore issues).comments = issues.map Issue.comment ∧
    (0 ≤ (analyzeCode (.success d m)).readability.score ∧
      (analyzeCode (.success d m)).readability.score ≤ 25) ∧
    (0 ≤ (analyzeCode (.success d m)).complexity.score ∧
      (analyzeCode (.success d m)).complexity.score ≤ 25) ∧
    (0 ≤ (analyzeCode (.success d m)).edgeCases.score ∧
      (analyzeCode (.success d m)).edgeCases.score ≤ 25) ∧
    (0 ≤ (analyzeCode (.success d m)).security.score ∧
      (analyzeCode (.success d m)).security.score ≤ 25) ∧
    (analyzeCode (.success d m)).totalScore
        = (analyzeCode (.success d m)).readability.score
          + (analyzeCode (.success d m)).complexity.score
          + (analyzeCode (.success d m)).edgeCases.score
          + (analyzeCode (.success d m)).security.score ∧
    0 ≤ (analyzeCode (.success d m)).totalScore ∧
    (analyzeCode (.success d m)).totalScore ≤ 100 := by
  have hr : ∀ i ∈ d.readability, 0 ≤ i.penalty := fun i hi =>
    hpen i (by simp [hi])
  have hc : ∀ i ∈ d.complexity, 0 ≤ i.penalty := fun i hi =>
    hpen i (by simp [hi])
  have he : ∀ i ∈ d.edgeCases, 0 ≤ i.penalty := fun i hi =>
    hpen i (by simp [hi])
  have hs : ∀ i ∈ d.security, 0 ≤ i.penalty := fun i hi =>
    hpen i (by simp [hi])
  have projR : (analyzeCode (.success d m)).readability
      = aggregateCategory MAX_SCORE d.readability := rfl
  have projC : (analyzeCode (.success d m)).complexity
      = aggregateCategory MAX_SCORE d.complexity := rfl
  have projE : (analyzeCode (.success d m)).edgeCases
      = aggregateCategory MAX_SCORE d.edgeCases := rfl
  have projS : (analyzeCode (.success d m)).security
      = aggregateCategory MAX_SCORE d.security := rfl
  have projT : (analyzeCode (.success d m)).totalScore
      = (aggregateCategory MAX_SCORE d.readability).score
        + (aggregateCategory MAX_SCORE d.complexity).score
        + (aggregateCategory MAX_SCORE d.edgeCases).score
        + (aggregateCategory MAX_SCORE d.security).score := rfl
  have hmax : (0 : ℤ) ≤ MAX_SCORE := by norm_num [MAX_SCORE]
  have bR := And.intro (aggregateCategory_score_nonneg MAX_SCORE d.readability)
    (aggregateCategory_score_le MAX_SCORE d.readability hmax hr)
  have bC := And.intro (aggregateCategory_score_nonneg MAX_SCORE d.complexity)
    (aggregateCategory_score_le MAX_SCORE d.complexity hmax hc)
  have bE := And.intro (aggregateCategory_score_nonneg MAX_SCORE d.edgeCases)
    (aggregateCategory_score_le MAX_SCORE d.edgeCases hmax he)
  have bS := And.intro (aggregateCategory_score_nonneg MAX_SCORE d.security)
    (aggregateCategory_score_le MAX_SCORE d.security hmax hs)
  refine ⟨rfl, rfl, ?_, ?_, ?_, ?_, projT, ?_, ?_⟩
  · rw [projR]; exact ⟨bR.1, bR.2.trans_eq (by norm_num [MAX_SCORE])⟩
  · rw [projC]; exact ⟨bC.1, bC.2.trans_eq (by norm_num [MAX_SCORE])⟩
  · rw [projE]; exact ⟨bE.1, bE.2.trans_eq (by norm_num [MAX_SCORE])⟩
  · rw [projS]; exact ⟨bS.1, bS.2.trans_eq (by norm_num [MAX_SCORE])⟩
  · rw [projT]; have := bR.1; have := bC.1; have := bE.1; have := bS.1; omega
  · rw [projT]
    have h1 := bR.2; have h2 := bC.2; have h3 := bE.2; have h4 := bS.2
    have hM : MAX_SCORE = 25 := rfl
    omega

/-- Witness for C1 at a concrete input: one CRITICAL security issue
(the browser eval shape, penalty 8), empty other categories. -/
theorem aggregateCategory_spec_and_analyzeCode_bounds_witness :
    (∀ i ∈ (DetectorIssues.mk [] [] [] [browserEvalIssue "eval" 3]).readability
        ++ (DetectorIssues.mk [] [] [] [browserEvalIssue "eval" 3]).complexity
        ++ (DetectorIssues.mk [] [] [] [browserEvalIssue "eval" 3]).edgeCases
        ++ (DetectorIssues.mk [] [] [] [browserEvalIssue "eval" 3]).security,
      0 ≤ i.penalty) ∧
    (0 ≤ (analyzeCode (.success ⟨[], [], [], [browserEvalIssue "eval" 3]⟩
        ⟨0, 0, 0, 0⟩)).totalScore ∧
      (analyzeCode (.success ⟨[], [], [], [browserEvalIssue "eval" 3]⟩
        ⟨0, 0, 0, 0⟩)).totalScore ≤ 100) :=
  ⟨by decide,
    (aggregateCategory_spec_and_analyzeCode_bounds 25 []
      ⟨[], [], [], [browserEvalIssue "eval" 3]⟩ ⟨0, 0, 0, 0⟩
      (by decide)).2.2.2.2.2.2.2⟩

/-! ## Helper lemmas on `dedupFirst` -/

theorem dedupFirst_go_sub (l : List String) :
    ∀ acc x, x ∈ acc →
      x ∈ l.foldl (fun (acc : List String) x => if acc.contains x then acc else acc ++ [x]) acc := by
  induction l with
  | nil => intro acc x hx; simpa using hx
  | cons a as ih =>
    intro acc x hx
    simp only [List.foldl_cons]
    cases hc : acc.contains a
    · simp only [hc, Bool.false_eq_true, if_false]
      exact ih _ x (by simp [hx])
    · simp only [hc, if_true]
      exact ih _ x hx

theorem dedupFirst_go_mem (l : List String) :
    ∀ acc x, x ∈ l →
      x ∈ l.foldl (fun (acc : List String) x => if acc.contains x then acc else acc ++ [x]) acc := by
  induction l with
  | nil => intro acc x hx; simp at hx
  | cons a as ih =>
    intro acc x hx
    rcases List.mem_cons.1 hx with rfl | hx
    · simp only [List.foldl_cons]
      cases hc : acc.contains x
      · simp only [hc, Bool.false_eq_true, if_false]
        exact dedupFirst_go_sub as _ x (by simp)
      · simp only [hc, if_true]
        exact dedupFirst_go_sub as _ x (by simpa using hc)
    · exact ih _ x hx

theorem dedupFirst_go_nodup (l : List String) :
    ∀ acc, acc.Nodup →
      (l.foldl (fun (acc : List String) x => if acc.contains x then acc else acc ++ [x]) acc).Nodup := by
  induction l with
  | nil => intro acc h; simpa using h
  | cons a as ih =>
    intro acc h
    simp only [List.foldl_cons]
    cases hc : acc.contains a
    · simp only [hc, Bool.false_eq_true, if_false]
      refine ih _ ?_
      have ha : a ∉ acc := by simpa using hc
      simp [List.nodup_append, h, ha]
    · simp only [hc, if_true]
      exact ih _ h

theorem dedupFirst_nodup (l : List String) : (dedupFirst l).Nodup :=
  dedupFirst_go_nodup l [] (by simp)

theorem mem_dedupFirst (l : List String) (x : String) (h : x ∈ l) :
    x ∈ dedupFirst l :=
  dedupFirst_go_mem l [] x h

/-- C2: `determineVerdict` returns `BLOCK_MERGE` whenever `criticalIssues`
is non-empty, regardless of `totalScore` (including 100), with an override
reason naming the distinct critical issue categories; with no critical
issues it returns exactly the score band: `≥ 85 → APPROVE`,
`75–84 → APPROVE_WITH_NITS`, `65–74 → REQUEST_CHANGES`,
`< 65 → BLOCK_MERGE`. -/
theorem determineVerdict_override_and_bands (input : VerdictInput) :
    (input.criticalIssues ≠ [] →
      (determineVerdict input).verdict = .BLOCK_MERGE ∧
      (determineVerdict input).overrideReason
          = some ("Critical security issues detected: "
            ++ joinSep ", " (criticalTypes input.criticalIssues)) ∧
      (criticalTypes input.criticalIssues).Nodup ∧
      ∀ i ∈ input.criticalIssues,
        classifyCriticalComment i.comment ∈ criticalTypes input.criticalIssues) ∧
    (input.criticalIssues = [] →
      (85 ≤ input.totalScore → (determineVerdict input).verdict = .APPROVE) ∧
      (75 ≤ input.totalScore ∧ input.totalScore ≤ 84 →
        (determineVerdict input).verdict = .APPROVE_WITH_NITS) ∧
      (65 ≤ input.totalScore ∧ input.totalScore ≤ 74 →
        (determineVerdict input).verdict = .REQUEST_CHANGES) ∧
      (input.totalScore < 65 → (determineVerdict input).verdict = .BLOCK_MERGE)) := by
  constructor
  · intro hne
    have hempty : input.criticalIssues.isEmpty = false := by
      cases h : input.criticalIssues with
      | nil => exact absurd h hne
      | cons a l => simp [h]
    refine ⟨?_, ?_, dedupFirst_nodup _, ?_⟩
    · simp [determineVerdict, hempty]
    · simp [determineVerdict, hempty]
    · intro i hi
      exact mem_dedupFirst _ _ (List.mem_map.2 ⟨i, hi, rfl⟩)
  · intro hnil
    have hempty : input.criticalIssues.isEmpty = true := by simp [hnil]
    refine ⟨?_, ?_, ?_, ?_⟩
    · intro ht
      simp [determineVerdict, hempty, getScoreBasedVerdict, ht]
    · intro ⟨h1, h2⟩
      have : ¬ (85 ≤ input.totalScore) := by omega
      simp [determineVerdict, hempty, getScoreBasedVerdict, this, h1]
    · intro ⟨h1, h2⟩
      have n1 : ¬ (85 ≤ input.totalScore) := by omega
      have n2 : ¬ (75 ≤ input.totalScore) := by omega
      simp [determineVerdict, hempty, getScoreBasedVerdict, n1, n2, h1]
    · intro ht
      have n1 : ¬ (85 ≤ input.totalScore) := by omega
      have n2 : ¬ (75 ≤ input.totalScore) := by omega
      have n3 : ¬ (65 ≤ input.totalScore) := by omega
      simp [determineVerdict, hempty, getScoreBasedVerdict, n1, n2, n3]

/-- Witness for C2 at a concrete input: a perfect score of 100 together
with one CRITICAL eval issue is still BLOCK_MERGE, and with no critical
issues a score of 100 is APPROVE. -/
theorem determineVerdict_override_and_bands_witness :
    ((VerdictInput.mk 100
        [⟨8, "CRITICAL: eval() usage detected at line 3.", some .CRITICAL, none⟩]
        none).criticalIssues ≠ [] ∧
      (determineVerdict (VerdictInput.mk 100
        [⟨8, "CRITICAL: eval() usage detected at line 3.", some .CRITICAL, none⟩]
        none)).verdict = .BLOCK_MERGE) ∧
    ((VerdictInput.mk 100 [] none).criticalIssues = [] ∧
      (determineVerdict (VerdictInput.mk 100 [] none)).verdict = .APPROVE) :=
  ⟨⟨by decide,
    ((determineVerdict_override_and_bands (VerdictInput.mk 100
        [⟨8, "CRITICAL: eval() usage detected at line 3.", some .CRITICAL, none⟩]
        none)).1 (by decide)).1⟩,
   ⟨rfl,
    ((determineVerdict_override_and_bands (VerdictInput.mk 100 [] none)).2 rfl).1
      (by norm_num)⟩⟩

/-! ## Helper lemmas on the decision engine -/

theorem strAppend_assoc (a b c : String) : a ++ b ++ c = a ++ (b ++ c) := by
  obtain ⟨da⟩ := a
  obtain ⟨db⟩ := b
  obtain ⟨dc⟩ := c
  show String.mk ((da ++ db) ++ dc) = String.mk (da ++ (db ++ dc))
  rw [List.append_assoc]

theorem filterFailed_isEmpty_false (l : List (String × ℤ)) (x : String × ℤ)
    (hx : x ∈ l) (hlow : x.2 < REJECT_CATEGORY) :
    (l.filter fun p => p.2 < REJECT_CATEGORY).isEmpty = false := by
  have hmem : x ∈ l.filter (fun p => p.2 < REJECT_CATEGORY) :=
    List.mem_filter.2 ⟨hx, decide_eq_true hlow⟩
  cases hf : l.filter (fun p => p.2 < REJECT_CATEGORY) with
  | nil => rw [hf] at hmem; simp at hmem
  | cons a t => simp [hf]

theorem checkCriticalDeductions_iff (comments : List String) :
    checkCriticalDeductions comments = true ↔
      ∃ c ∈ comments, ∃ pat ∈ CRITICAL_SECURITY_PATTERNS,
        jsIncludes (jsToLower c) (jsToLower pat) = true := by
  simp only [checkCriticalDeductions, List.any_eq_true, List.mem_map]
  constructor
  · rintro ⟨pat, hp, lc, ⟨c, hc, rfl⟩, h⟩
    exact ⟨c, hc, pat, hp, h⟩
  · rintro ⟨c, hc, pat, hp, h⟩
    exact ⟨pat, hp, jsToLower c, ⟨c, hc, rfl⟩, h⟩

/-- C3: `determineDecision` implements the ordered first-match rule:
(1) `totalScore < 65` or any category `< 10` gives `NOT_READY_FOR_REVIEW`
with a reason listing every failing condition; (2) otherwise
`totalScore ≤ 80` gives `NEEDS_REFACTOR`; (3) otherwise the decision is
`NEEDS_REFACTOR` exactly when some security comment contains,
case-insensitively, one of the critical substrings, and otherwise
`READY_FOR_HUMAN_REVIEW` with the reason naming the weakest category when
it scores below 20/25; in particular `NOT_READY_FOR_REVIEW` is never
returned once `totalScore ≥ 65` and all categories score `≥ 10`. -/
theorem determineDecision_rules (scores : Scores) :
    ((scores.totalScore < 65 ∨ scores.readability.score < 10 ∨
        scores.complexity.score < 10 ∨ scores.edgeCases.score < 10 ∨
        scores.security.score < 10) →
      (determineDecision scores).decision = .NOT_READY_FOR_REVIEW ∧
      (scores.totalScore < 65 →
        jsIncludes (determineDecision scores).decisionReason
          ("Total score " ++ toString scores.totalScore ++
            " is below minimum threshold (" ++ toString REJECT_TOTAL ++ ")") = true) ∧
      (∀ p ∈ [("readability", scores.readability.score),
          ("complexity", scores.complexity.score),
          ("edgeCases", scores.edgeCases.score),
          ("security", scores.security.score)],
        p.2 < 10 →
          jsIncludes (determineDecision scores).decisionReason
            (p.1 ++ ": " ++ toString p.2) = true)) ∧
    (10 ≤ scores.readability.score → 10 ≤ scores.complexity.score →
      10 ≤ scores.edgeCases.score → 10 ≤ scores.security.score →
      65 ≤ scores.totalScore →
      ((determineDecision scores).decision ≠ .NOT_READY_FOR_REVIEW) ∧
      (scores.totalScore ≤ 80 →
        (determineDecision scores).decision = .NEEDS_REFACTOR) ∧
      (80 < scores.totalScore →
        ((∃ c ∈ scores.security.comments, ∃ pat ∈ CRITICAL_SECURITY_PATTERNS,
            jsIncludes (jsToLower c) (jsToLower pat) = true) →
          (determineDecision scores).decision = .NEEDS_REFACTOR) ∧
        (¬ (∃ c ∈ scores.security.comments, ∃ pat ∈ CRITICAL_SECURITY_PATTERNS,
            jsIncludes (jsToLower c) (jsToLower pat) = true) →
          (determineDecision scores).decision = .READY_FOR_HUMAN_REVIEW ∧
          ∀ lowest,
            firstMinBy [("readability", scores.readability.score),
              ("complexity", scores.complexity.score),
              ("edgeCases", scores.edgeCases.score),
              ("security", scores.security.score)] = some lowest →
            lowest.2 < 20 →
              jsIncludes (determineDecision scores).decisionReason
                ("pay attention to " ++ lowest.1 ++ " (" ++
                  toString lowest.2 ++ "/25).") = true))) := by
  constructor
  · intro hfail
    have hcond : (scores.totalScore < REJECT_TOTAL
        || !([("readability", scores.readability.score),
              ("complexity", scores.complexity.score),
              ("edgeCases", scores.edgeCases.score),
              ("security", scores.security.score)].filter
                (fun p => p.2 < REJECT_CATEGORY)).isEmpty) = true := by
      rcases hfail with h | h | h | h | h
      · have hd : decide (scores.totalScore < REJECT_TOTAL) = true :=
          decide_eq_true (by simpa [REJECT_TOTAL] using h)
        simp [hd]
      all_goals
        first
        | (have hne := filterFailed_isEmpty_false
            [("readability", scores.readability.score),
              ("complexity", scores.complexity.score),
              ("edgeCases", scores.edgeCases.score),
              ("security", scores.security.score)]
            ("readability", scores.readability.score) (by simp)
            (by simpa [REJECT_CATEGORY] using h)
           simp [hne])
        | (have hne := filterFailed_isEmpty_false
            [("readability", scores.readability.score),
              ("complexity", scores.complexity.score),
              ("edgeCases", scores.edgeCases.score),
              ("security", scores.security.score)]
            ("complexity", scores.complexity.score) (by simp)
            (by simpa [REJECT_CATEGORY] using h)
           simp [hne])
        | (have hne := filterFailed_isEmpty_false
            [("readability", scores.readability.score),
              ("complexity", scores.complexity.score),
              ("edgeCases", scores.edgeCases.score),
              ("security", scores.security.score)]
            ("edgeCases", scores.edgeCases.score) (by simp)
            (by simpa [REJECT_CATEGORY] using h)
           simp [hne])
        | (have hne := filterFailed_isEmpty_false
            [("readability", scores.readability.score),
              ("complexity", scores.complexity.score),
              ("edgeCases", scores.edgeCases.score),
              ("security", scores.security.score)]
            ("security", scores.security.score) (by simp)
            (by simpa [REJECT_CATEGORY] using h)
           simp [hne])
    have hdec : determineDecision scores =
        ⟨.NOT_READY_FOR_REVIEW,
          buildRejectReason scores.totalScore
            ([("readability", scores.readability.score),
              ("complexity", scores.complexity.score),
              ("edgeCases", scores.edgeCases.score),
              ("security", scores.security.score)].filter
                (fun p => p.2 < REJECT_CATEGORY)),
          ⟨scores.totalScore,
            [("readability", scores.readability.score),
              ("complexity", scores.complexity.score),
              ("edgeCases", scores.edgeCases.score),
              ("security", scores.security.score)],
            ([("readability", scores.readability.score),
              ("complexity", scores.complexity.score),
              ("edgeCases", scores.edgeCases.score),
              ("security", scores.security.score)].filter
                (fun p => p.2 < REJECT_CATEGORY)).map Prod.fst,
            checkCriticalDeductions scores.security.comments⟩⟩ := by
      rw [determineDecision]
      simp only [hcond, if_true]
    refine ⟨by rw [hdec], ?_, ?_⟩
    · intro ht
      rw [hdec]
      simp only [buildRejectReason]
      have hmem : ("Total score " ++ toString scores.totalScore ++
          " is below minimum threshold (" ++ toString REJECT_TOTAL ++ ")") ∈
          ((if scores.totalScore < REJECT_TOTAL then
              ["Total score " ++ toString scores.totalScore ++
                " is below minimum threshold (" ++ toString REJECT_TOTAL ++ ")"]
            else []) ++
            (if (([("readability", scores.readability.score),
              ("complexity", scores.complexity.score),
              ("edgeCases", scores.edgeCases.score),
              ("security", scores.security.score)].filter
                (fun p => p.2 < REJECT_CATEGORY)).isEmpty) then []
            else
              ["Critical deficiencies in: " ++
                joinSep ", " (([("readability", scores.readability.score),
                  ("complexity", scores.complexity.score),
                  ("edgeCases", scores.edgeCases.score),
                  ("security", scores.security.score)].filter
                    (fun p => p.2 < REJECT_CATEGORY)).map
                      fun p => p.1 ++ ": " ++ toString p.2) ++
                " (minimum: " ++ toString REJECT_CATEGORY ++ ")"])) := by
        have : scores.totalScore < REJECT_TOTAL := by
          simpa [REJECT_TOTAL] using ht
        simp [this]
      exact jsIncludes_append_left _ _ _ (mem_joinSep _ _ _ hmem)
    · intro p hp hplow
      rw [hdec]
      simp only [buildRejectReason]
      set failed := ([("readability", scores.readability.score),
        ("complexity", scores.complexity.score),
        ("edgeCases", scores.edgeCases.score),
        ("security", scores.security.score)].filter
          (fun p => p.2 < REJECT_CATEGORY)) with hfailedDef
      have hpfailed : p ∈ failed := by
        rw [hfailedDef]
        refine List.mem_filter.2 ⟨hp, ?_⟩
        simpa [REJECT_CATEGORY] using hplow
      have hne : failed.isEmpty = false := by
        cases hf : failed with
        | nil => rw [hf] at hpfailed; simp at hpfailed
        | cons a l => simp [hf]
      have hentry : (p.1 ++ ": " ++ toString p.2) ∈
          failed.map (fun p => p.1 ++ ": " ++ toString p.2) :=
        List.mem_map.2 ⟨p, hpfailed, rfl⟩
      have hinjoin : jsIncludes
          (joinSep ", " (failed.map fun p => p.1 ++ ": " ++ toString p.2))
          (p.1 ++ ": " ++ toString p.2) = true :=
        mem_joinSep _ _ _ hentry
      have hclause : jsIncludes
          ("Critical deficiencies in: " ++
            joinSep ", " (failed.map fun p => p.1 ++ ": " ++ toString p.2) ++
            " (minimum: " ++ toString REJECT_CATEGORY ++ ")")
          (p.1 ++ ": " ++ toString p.2) = true := by
        apply jsIncludes_append_left
        apply jsIncludes_append_left
        apply jsIncludes_append_left
        exact jsIncludes_append_right _ _ _ hinjoin
      have hclausemem : ("Critical deficiencies in: " ++
            joinSep ", " (failed.map fun p => p.1 ++ ": " ++ toString p.2) ++
            " (minimum: " ++ toString REJECT_CATEGORY ++ ")") ∈
          ((if scores.totalScore < REJECT_TOTAL then
              ["Total score " ++ toString scores.totalScore ++
                " is below minimum threshold (" ++ toString REJECT_TOTAL ++ ")"]
            else []) ++
            (if failed.isEmpty then []
            else
              ["Critical deficiencies in: " ++
                joinSep ", " (failed.map fun p => p.1 ++ ": " ++ toString p.2) ++
                " (minimum: " ++ toString REJECT_CATEGORY ++ ")"])) := by
        simp [hne]
      exact jsIncludes_trans _ _ _ hclause
        (jsIncludes_append_left _ _ _ (mem_joinSep _ _ _ hclausemem))
  · intro h1 h2 h3 h4 ht
    have hfilter : ([("readability", scores.readability.score),
        ("complexity", scores.complexity.score),
        ("edgeCases", scores.edgeCases.score),
        ("security", scores.security.score)].filter
          (fun p => p.2 < REJECT_CATEGORY)) = [] := by
      apply List.filter_eq_nil_iff.2
      intro p hp
      simp only [List.mem_cons, List.not_mem_nil, or_false] at hp
      rcases hp with rfl | rfl | rfl | rfl <;>
        simp [REJECT_CATEGORY] <;> omega
    have hdecF : decide (scores.totalScore < REJECT_TOTAL) = false :=
      decide_eq_false (by simp [REJECT_TOTAL]; omega)
    have hcond : (scores.totalScore < REJECT_TOTAL
        || !([("readability", scores.readability.score),
              ("complexity", scores.complexity.score),
              ("edgeCases", scores.edgeCases.score),
              ("security", scores.security.score)].filter
                (fun p => p.2 < REJECT_CATEGORY)).isEmpty) = false := by
      rw [hdecF, hfilter]
      rfl
    have hdecEq : (determineDecision scores).decision =
        (if scores.totalScore ≤ REFACTOR_MAX then Decision.NEEDS_REFACTOR
        else if checkCriticalDeductions scores.security.comments then
          Decision.NEEDS_REFACTOR
        else Decision.READY_FOR_HUMAN_REVIEW) := by
      rw [determineDecision]
      simp only [hcond, Bool.false_eq_true, if_false]
      by_cases hle : scores.totalScore ≤ REFACTOR_MAX
      · simp [hle]
      · by_cases hcd : checkCriticalDeductions scores.security.comments <;>
          simp [hle, hcd]
    refine ⟨?_, ?_, ?_⟩
    · intro hbad
      rw [hdecEq] at hbad
      by_cases hle : scores.totalScore ≤ REFACTOR_MAX
      · simp [hle] at hbad
      · by_cases hcd : checkCriticalDeductions scores.security.comments <;>
          simp [hle, hcd] at hbad
    · intro hle
      rw [hdecEq]
      have hle' : scores.totalScore ≤ REFACTOR_MAX := by
        simpa [REFACTOR_MAX] using hle
      simp [hle']
    · intro hgt
      have hgt' : ¬ (scores.totalScore ≤ REFACTOR_MAX) := by
        simp [REFACTOR_MAX]; omega
      constructor
      · intro hex
        have hcd : checkCriticalDeductions scores.security.comments = true :=
          (checkCriticalDeductions_iff _).2 hex
        rw [hdecEq]
        simp [hgt', hcd]
      · intro hnex
        have hcd : checkCriticalDeductions scores.security.comments = false := by
          cases hcd : checkCriticalDeductions scores.security.comments
          · rfl
          · exact absurd ((checkCriticalDeductions_iff _).1 hcd) hnex
        have hdec : determineDecision scores =
            ⟨.READY_FOR_HUMAN_REVIEW,
              buildReadyReason scores.totalScore
                [("readability", scores.readability.score),
                  ("complexity", scores.complexity.score),
                  ("edgeCases", scores.edgeCases.score),
                  ("security", scores.security.score)],
              ⟨scores.totalScore,
                [("readability", scores.readability.score),
                  ("complexity", scores.complexity.score),
                  ("edgeCases", scores.edgeCases.score),
                  ("security", scores.security.score)],
                [], false⟩⟩ := by
          rw [determineDecision]
          simp only [hfilter, hdecF, List.isEmpty_nil, Bool.not_true,
            Bool.or_false, Bool.false_eq_true, if_false, hgt', hcd,
            List.map_nil]
        refine ⟨by rw [hdec], ?_⟩
        intro lowest hmin hlow
        rw [hdec]
        simp only [buildReadyReason, hmin, hlow, if_true]
        have hsplit : (" Reviewer should pay attention to " : String) =
            " Reviewer should " ++ "pay attention to " := by decide
        rw [hsplit]
        have hre : ("Code quality score " ++ toString scores.totalScore ++
              "/100 meets standards for human review." ++
              (" Reviewer should " ++ "pay attention to ") ++ lowest.1 ++ " (" ++
              toString lowest.2 ++ "/25).") =
            ("Code quality score " ++ toString scores.totalScore ++
              "/100 meets standards for human review." ++ " Reviewer should ") ++
            ("pay attention to " ++ lowest.1 ++ " (" ++ toString lowest.2 ++ "/25).") := by
          simp only [strAppend_assoc]
        rw [hre]
        exact jsIncludes_append_self _ _

/-- Witness for C3 at concrete inputs: all categories 22 with total 88 and
no security comments is READY_FOR_HUMAN_REVIEW; a security score of 5 is
NOT_READY_FOR_REVIEW even at total 80. -/
theorem determineDecision_rules_witness :
    ((10 : ℤ) ≤ (Scores.mk ⟨22, []⟩ ⟨22, []⟩ ⟨22, []⟩ ⟨22, []⟩ 88).readability.score ∧
      (65 : ℤ) ≤ (Scores.mk ⟨22, []⟩ ⟨22, []⟩ ⟨22, []⟩ ⟨22, []⟩ 88).totalScore ∧
      (determineDecision (Scores.mk ⟨22, []⟩ ⟨22, []⟩ ⟨22, []⟩ ⟨22, []⟩ 88)).decision
        = .READY_FOR_HUMAN_REVIEW) ∧
    ((Scores.mk ⟨25, []⟩ ⟨25, []⟩ ⟨25, []⟩ ⟨5, []⟩ 80).security.score < 10 ∧
      (determineDecision (Scores.mk ⟨25, []⟩ ⟨25, []⟩ ⟨25, []⟩ ⟨5, []⟩ 80)).decision
        = .NOT_READY_FOR_REVIEW) :=
  ⟨⟨by decide, by decide,
    (((((determineDecision_rules (Scores.mk ⟨22, []⟩ ⟨22, []⟩ ⟨22, []⟩ ⟨22, []⟩ 88)).2
      (by decide) (by decide) (by decide) (by decide) (by decide)).2.2
        (by decide)).2 (by simp)).1)⟩,
   ⟨by decide,
    ((determineDecision_rules (Scores.mk ⟨25, []⟩ ⟨25, []⟩ ⟨25, []⟩ ⟨5, []⟩ 80)).1
      (Or.inr (Or.inr (Or.inr (Or.inr (by decide)))))).1⟩⟩

/-- C4, counterexample: on a concrete parse failure the top-level `error`
field carries the parse error message, but every category's comment list
carries only the fixed placeholder `"Unable to analyze: code has syntax
errors"` — the parse error message is *not* in the comment lists, contrary
to the claim. -/
theorem analyzeCode_parse_failure_counterexample :
    (analyzeCode (.failure (parseCodeError "Unexpected token (1:1)"))).error
        = some "Syntax Error: Unexpected token (1:1)" ∧
    (analyzeCode (.failure (parseCodeError "Unexpected token (1:1)"))).readability.comments
        = ["Unable to analyze: code has syntax errors"] ∧
    "Syntax Error: Unexpected token (1:1)" ∉
      (analyzeCode (.failure (parseCodeError "Unexpected token (1:1)"))).readability.comments ∧
    "Syntax Error: Unexpected token (1:1)" ∉
      (analyzeCode (.failure (parseCodeError "Unexpected token (1:1)"))).security.comments := by
  refine ⟨rfl, rfl, ?_, ?_⟩ <;> decide

/-- C4 (amended): on every parser failure, `analyzeCode` (server and
browser alike) returns the all-zero result with `totalScore = 0`, the
fixed placeholder message `"Unable to analyze: code has syntax errors"`
in every category's comment list, and the parse error message — non-empty,
since `parseCode` prefixes `"Syntax Error: "` — in the top-level `error`
field. -/
theorem analyzeCode_parse_failure_all_zero (babelMsg fn : String) :
    (analyzeCode (.failure (parseCodeError babelMsg))).readability
        = ⟨0, ["Unable to analyze: code has syntax errors"]⟩ ∧
    (analyzeCode (.failure (parseCodeError babelMsg))).complexity
        = ⟨0, ["Unable to analyze: code has syntax errors"]⟩ ∧
    (analyzeCode (.failure (parseCodeError babelMsg))).edgeCases
        = ⟨0, ["Unable to analyze: code has syntax errors"]⟩ ∧
    (analyzeCode (.failure (parseCodeError babelMsg))).security
        = ⟨0, ["Unable to analyze: code has syntax errors"]⟩ ∧
    (analyzeCode (.failure (parseCodeError babelMsg))).totalScore = 0 ∧
    (analyzeCode (.failure (parseCodeError babelMsg))).error
        = some (parseCodeError babelMsg) ∧
    parseCodeError babelMsg ≠ "" ∧
    (analyzeCodeBrowser (.failure (parseCodeError babelMsg)) fn).readability
        = ⟨0, ["Unable to analyze: code has syntax errors"]⟩ ∧
    (analyzeCodeBrowser (.failure (parseCodeError babelMsg)) fn).totalScore = 0 ∧
    (analyzeCodeBrowser (.failure (parseCodeError babelMsg)) fn).error
        = some (parseCodeError babelMsg) := by
  refine ⟨rfl, rfl, rfl, rfl, rfl, rfl, ?_, rfl, rfl, rfl⟩
  intro h
  have hd := congrArg String.data h
  rw [show parseCodeError babelMsg = "Syntax Error: " ++ babelMsg from rfl,
    data_append] at hd
  simp at hd

/-! ## C5: the RCI formula -/

/-- The normalization as the spec words it: strictly linear between the
band ends, with no intermediate rounding. -/
def specLinearNormalize (value mn mx : ℤ) : ℚ :=
  if value ≤ mn then 0
  else if value ≥ mx then 100
  else (((value : ℚ) - (mn : ℚ)) / ((mx : ℚ) - (mn : ℚ))) * 100

/-- The RCI score as the claim words it: linear normalization, one
multiplication by the weight, one rounding per contribution, sum clamped
to [0,100]. -/
def specRCIScore (metrics : Metrics) (securityScore : ℤ) : ℤ :=
  let d := 25 - securityScore
  let c1 := jsRound (specLinearNormalize metrics.maxNestingDepth 0 8 * (1/4))
  let c2 := jsRound (specLinearNormalize metrics.maxCyclomaticComplexity 1 25 * (3/10))
  let c3 := jsRound (specLinearNormalize metrics.maxFunctionLength 0 100 * (1/5))
  let c4 := jsRound (specLinearNormalize d 0 25 * (1/4))
  min 100 (max 0 (c1 + c2 + c3 + c4))

/-- C5, counterexample: at `maxNestingDepth = 3` (the other factors at
their band minima) the code normalizes 37.5 to the integer 38 *before*
weighting, so the nesting contribution is `round(38 · 0.25) = 10` and the
RCI score is 10, while the claim's single-rounding formula gives
`round(37.5 · 0.25) = 9`. -/
theorem calculateRCI_single_rounding_counterexample :
    (calculateRCI ⟨3, 1, 0, 0⟩ 25).score = 10 ∧
    specRCIScore ⟨3, 1, 0, 0⟩ 25 = 9 ∧
    (calculateRCI ⟨3, 1, 0, 0⟩ 25).score ≠ specRCIScore ⟨3, 1, 0, 0⟩ 25 := by
  refine ⟨?_, ?_, ?_⟩ <;>
    norm_num [calculateRCI, specRCIScore, specLinearNormalize, normalizeMetric,
      jsRound]

/-- C5 (amended): `calculateRCI` normalizes each raw factor against its
band — clamping at the ends and *rounding the linear position to the
nearest integer* — then multiplies that integer by the factor's weight
(0.25, 0.30, 0.20, 0.25, summing to 1) and rounds again to get the
contribution; the score is the sum of contributions clamped to [0,100];
the level is LOW for score ≤ 33, MEDIUM for ≤ 66, else HIGH. -/
theorem calculateRCI_double_rounding_spec (metrics : Metrics) (securityScore : ℤ) :
    (calculateRCI metrics securityScore).score
        = min 100 (max 0
          (jsRound ((normalizeMetric metrics.maxNestingDepth 0 8 : ℚ) * (1/4))
            + jsRound ((normalizeMetric metrics.maxCyclomaticComplexity 1 25 : ℚ) * (3/10))
            + jsRound ((normalizeMetric metrics.maxFunctionLength 0 100 : ℚ) * (1/5))
            + jsRound ((normalizeMetric (25 - securityScore) 0 25 : ℚ) * (1/4)))) ∧
    (∀ value mn mx : ℤ, normalizeMetric value mn mx
        = if value ≤ mn then 0
          else if value ≥ mx then 100
          else jsRound (specLinearNormalize value mn mx)) ∧
    ((1 : ℚ)/4 + 3/10 + 1/5 + 1/4 = 1) ∧
    (0 ≤ (calculateRCI metrics securityScore).score ∧
      (calculateRCI metrics securityScore).score ≤ 100) ∧
    ((calculateRCI metrics securityScore).score ≤ 33 →
      (calculateRCI metrics securityScore).level = "LOW") ∧
    (33 < (calculateRCI metrics securityScore).score ∧
        (calculateRCI metrics securityScore).score ≤ 66 →
      (calculateRCI metrics securityScore).level = "MEDIUM") ∧
    (66 < (calculateRCI metrics securityScore).score →
      (calculateRCI metrics securityScore).level = "HIGH") := by
  have hlevel : (calculateRCI metrics securityScore).level
      = determineLevel (calculateRCI metrics securityScore).score := rfl
  refine ⟨rfl, ?_, by norm_num, ⟨?_, ?_⟩, ?_, ?_, ?_⟩
  · intro value mn mx
    by_cases h1 : value ≤ mn
    · simp [normalizeMetric, h1]
    · by_cases h2 : value ≥ mx
      · simp [normalizeMetric, h1, h2]
      · simp [normalizeMetric, specLinearNormalize, h1, h2]
  · exact le_min (by norm_num) (le_max_left 0 _)
  · exact min_le_left _ _
  · intro h
    rw [hlevel, determineLevel, if_pos h]
  · intro ⟨hgt, hle⟩
    rw [hlevel, determineLevel, if_neg (by omega), if_pos hle]
  · intro h
    rw [hlevel, determineLevel, if_neg (by omega), if_neg (by omega)]

/-- Witness for C5 at a concrete input: the nesting-3 example has score
10 and level LOW. -/
theorem calculateRCI_double_rounding_spec_witness :
    (calculateRCI ⟨3, 1, 0, 0⟩ 25).score ≤ 33 ∧
    (calculateRCI ⟨3, 1, 0, 0⟩ 25).level = "LOW" :=
  ⟨by norm_num [calculateRCI, normalizeMetric, jsRound],
   (calculateRCI_double_rounding_spec ⟨3, 1, 0, 0⟩ 25).2.2.2.2.1
     (by norm_num [calculateRCI, normalizeMetric, jsRound])⟩

/-! ## C6: complexity penalty tiers -/

theorem getComplexityPenalty_nonneg (c : ℤ) : 0 ≤ getComplexityPenalty c := by
  unfold getComplexityPenalty
  split_ifs <;> norm_num

theorem analyzeComplexity_sum (functions : List FunctionInfo) :
    ((functions.filterMap fun f =>
        if getComplexityPenalty f.complexity > 0 then some (complexityIssueFor f)
        else none).map Issue.penalty).sum
      = (functions.map fun f => getComplexityPenalty f.complexity).sum := by
  induction functions with
  | nil => simp
  | cons f fs ih =>
    rw [List.filterMap_cons]
    by_cases h : getComplexityPenalty f.complexity > 0
    · rw [if_pos h]
      simp only [List.map_cons, List.sum_cons]
      rw [ih]
      rfl
    · rw [if_neg h]
      have h0 : getComplexityPenalty f.complexity = 0 := by
        have := getComplexityPenalty_nonneg f.complexity
        omega
      simp only [List.map_cons, List.sum_cons, h0, zero_add]
      exact ih

/-- C6: the complexity penalty is tiered at the function's highest
offending level — `≤5 → 0`, `≤10 → 3`, `≤15 → 6`, `≤20 → 10`, `>20 → 15`
(so complexity 21 is penalized 15, not 10) — and `analyzeComplexity`
applies it exactly once per function: the total emitted penalty is the
sum, over the functions, of each function's single tier penalty. -/
theorem complexity_penalty_tiers :
    (∀ c : ℤ,
      (c ≤ 5 → getComplexityPenalty c = 0) ∧
      (5 < c → c ≤ 10 → getComplexityPenalty c = 3) ∧
      (10 < c → c ≤ 15 → getComplexityPenalty c = 6) ∧
      (15 < c → c ≤ 20 → getComplexityPenalty c = 10) ∧
      (20 < c → getComplexityPenalty c = 15)) ∧
    getComplexityPenalty 21 = 15 ∧
    (∀ (functions : List FunctionInfo) (globalComplexity : ℤ),
      functions ≠ [] →
      ((analyzeComplexity functions globalComplexity).map Issue.penalty).sum
        = (functions.map fun f => getComplexityPenalty f.complexity).sum) := by
  refine ⟨?_, by decide, ?_⟩
  · intro c
    refine ⟨?_, ?_, ?_, ?_, ?_⟩ <;> intros <;>
      (unfold getComplexityPenalty; split_ifs <;> omega)
  · intro functions globalComplexity hne
    cases functions with
    | nil => exact absurd rfl hne
    | cons f fs =>
      show ((((f :: fs).filterMap fun f =>
          if getComplexityPenalty f.complexity > 0 then some (complexityIssueFor f)
          else none).map Issue.penalty).sum) = _
      exact analyzeComplexity_sum (f :: fs)

/-- Witness for C6 at concrete input: one function of complexity exactly
21 is penalized 15 in total. -/
theorem complexity_penalty_tiers_witness :
    (20 : ℤ) < 21 ∧ getComplexityPenalty 21 = 15 ∧
    ([FunctionInfo.mk "'f'" 21] ≠ []) ∧
    ((analyzeComplexity [FunctionInfo.mk "'f'" 21] 1).map Issue.penalty).sum
      = ([FunctionInfo.mk "'f'" 21].map fun f => getComplexityPenalty f.complexity).sum :=
  ⟨by decide,
   (complexity_penalty_tiers.1 21).2.2.2.2 (by decide),
   by decide,
   complexity_penalty_tiers.2.2 [FunctionInfo.mk "'f'" 21] 1 (by decide)⟩

/-! ## C7: input validation in `analyze` -/

/-- C7: for a non-string input, or a string whose content is empty (its
JS-trim is the empty string, which covers the empty string itself),
`analyze` rejects with an error message starting `"Invalid input:"` —
distinguishable from the parser's `"Syntax Error:"` — without ever
invoking the parsing/analysis core (the result is the same for every
core), and never returns an ok analysis result. -/
theorem analyze_rejects_invalid_input (core : String → ServerAnalysisResult)
    (input : JSInput)
    (h : input = .nonString ∨ ∃ s, input = .string s ∧ jsTrim s = "") :
    ∃ e, analyze core input = .error e ∧
      charsStartWith "Invalid input:".data e.data = true ∧
      (∀ core2, analyze core2 input = .error e) ∧
      ∀ r, analyze core input ≠ .ok r := by
  rcases h with rfl | ⟨s, rfl, hs⟩
  · refine ⟨"Invalid input: \"code\" must be a string", rfl, by decide,
      fun core2 => rfl, ?_⟩
    intro r hr
    simp [analyze] at hr
  · have hlen : (jsTrim s).length = 0 := by rw [hs]; rfl
    refine ⟨"Invalid input: \"code\" cannot be empty", ?_, by decide, ?_, ?_⟩
    · simp [analyze, hlen]
    · intro core2
      simp [analyze, hlen]
    · intro r hr
      simp [analyze, hlen] at hr

/-- Witness for C7 at the concrete empty string (with a concrete core). -/
theorem analyze_rejects_invalid_input_witness :
    ((JSInput.string "") = .nonString ∨
      ∃ s, (JSInput.string "") = .string s ∧ jsTrim s = "") ∧
    ∃ e, analyze (fun _ => analyzeCode (.failure "unused")) (.string "") = .error e ∧
      charsStartWith "Invalid input:".data e.data = true ∧
      (∀ core2, analyze core2 (.string "") = .error e) ∧
      ∀ r, analyze (fun _ => analyzeCode (.failure "unused")) (.string "") ≠ .ok r :=
  ⟨Or.inr ⟨"", rfl, by decide⟩,
   analyze_rejects_invalid_input (fun _ => analyzeCode (.failure "unused"))
     (.string "") (Or.inr ⟨"", rfl, by decide⟩)⟩

/-! ## C8 and C10: the batch aggregator -/

/-- C8: `analyzeFiles` on a non-empty file list runs the per-file pipeline,
sets each aggregated category score to the rounded mean (JS `Math.round`,
halves up) of the per-file category scores — averaged, not summed — sets
the aggregated `totalScore` to the sum of the four rounded averages, keeps
the full per-file result list, and flattens all per-file critical issues
annotating each with its originating filename. -/
theorem analyzeFiles_averages (files : List (String × BrowserParseOutcome))
    (h : files ≠ []) :
    (analyzeFiles files).files = files.map (fun f => analyzeCodeBrowser f.2 f.1) ∧
    (analyzeFiles files).aggregated.readability.score
        = jsRound (((files.map fun f => (analyzeCodeBrowser f.2 f.1).readability.score).sum : ℚ)
            / ((files.length : ℤ) : ℚ)) ∧
    (analyzeFiles files).aggregated.complexity.score
        = jsRound (((files.map fun f => (analyzeCodeBrowser f.2 f.1).complexity.score).sum : ℚ)
            / ((files.length : ℤ) : ℚ)) ∧
    (analyzeFiles files).aggregated.edgeCases.score
        = jsRound (((files.map fun f => (analyzeCodeBrowser f.2 f.1).edgeCases.score).sum : ℚ)
            / ((files.length : ℤ) : ℚ)) ∧
    (analyzeFiles files).aggregated.security.score
        = jsRound (((files.map fun f => (analyzeCodeBrowser f.2 f.1).security.score).sum : ℚ)
            / ((files.length : ℤ) : ℚ)) ∧
    (analyzeFiles files).aggregated.totalScore
        = (analyzeFiles files).aggregated.readability.score
          + (analyzeFiles files).aggregated.complexity.score
          + (analyzeFiles files).aggregated.edgeCases.score
          + (analyzeFiles files).aggregated.security.score ∧
    (analyzeFiles files).criticalIssues
        = (files.map fun f => analyzeCodeBrowser f.2 f.1).flatMap
            (fun r => r.criticalIssues.map fun i =>
              FileCriticalIssue.mk i.penalty i.comment i.severity r.filename) := by
  have hpos : (0 : ℤ) < (files.length : ℤ) := by
    cases files with
    | nil => exact absurd rfl h
    | cons a l => simp
  simp only [analyzeFiles, List.length_map]
  rw [if_pos hpos]
  simp only [List.map_map]
  refine ⟨?_, ?_, ?_, ?_, ?_, ?_, ?_⟩ <;> first | rfl | trivial

/-- Witness for C8 at a concrete two-file input (scores 25 and 21, rounded
mean 23). -/
theorem analyzeFiles_averages_witness :
    ([("a.js", BrowserParseOutcome.success ⟨[], [], [], []⟩),
      ("b.js", BrowserParseOutcome.success ⟨[⟨4, "x", none⟩], [], [], []⟩)] ≠
        ([] : List (String × BrowserParseOutcome))) ∧
    (analyzeFiles [("a.js", BrowserParseOutcome.success ⟨[], [], [], []⟩),
      ("b.js", BrowserParseOutcome.success ⟨[⟨4, "x", none⟩], [], [], []⟩)]).aggregated.readability.score
        = jsRound ((([("a.js", BrowserParseOutcome.success ⟨[], [], [], []⟩),
            ("b.js", BrowserParseOutcome.success ⟨[⟨4, "x", none⟩], [], [], []⟩)].map
              fun f => (analyzeCodeBrowser f.2 f.1).readability.score).sum : ℚ) / 2) ∧
    (analyzeFiles [("a.js", BrowserParseOutcome.success ⟨[], [], [], []⟩),
      ("b.js", BrowserParseOutcome.success ⟨[⟨4, "x", none⟩], [], [], []⟩)]).aggregated.readability.score
        = 23 :=
  ⟨by decide,
   (analyzeFiles_averages _ (by decide)).2.1,
   by norm_num [analyzeFiles, analyzeCodeBrowser, aggregateCategory,
     extractCriticalIssues, jsRound, MAX_SCORE]⟩

/-- C10: `analyzeFiles` on the empty file list is total and returns the
all-zero aggregate with empty file and critical-issue lists — the
averaging division is guarded by the file count, so no division by zero
is performed. -/
theorem analyzeFiles_empty :
    analyzeFiles [] =
      ⟨[], ⟨⟨0, []⟩, ⟨0, []⟩, ⟨0, []⟩, ⟨0, []⟩, 0⟩, []⟩ := by
  simp [analyzeFiles]

/-! ## C9: server security issues carry no severity -/

/-- C9: every issue the server security detector emits carries only a
penalty and a comment — its severity is absent (`none`) — so filtering a
server issue list by `severity === 'CRITICAL'` always yields the empty
list; the CRITICAL tags exist only in the browser detector's emissions
(shown for the eval and child_process shapes).  The server result record
(`ServerAnalysisResult`) has no `criticalIssues` field at all. -/
theorem serverSecurity_no_severity (issues : List Issue)
    (h : ∀ i ∈ issues, ServerSecurityIssue i) :
    (∀ i ∈ issues, i.severity = none) ∧
    issues.filter (fun i => i.severity == some Severity.CRITICAL) = [] ∧
    (∀ name line, (browserEvalIssue name line).severity = some .CRITICAL) ∧
    (∀ m line, (browserChildProcessIssue m line).severity = some .CRITICAL) := by
  have hnone : ∀ i ∈ issues, i.severity = none := by
    intro i hi
    cases h i hi <;> rfl
  refine ⟨hnone, ?_, fun name line => rfl, fun m line => rfl⟩
  apply List.filter_eq_nil_iff.2
  intro i hi
  simp [hnone i hi]

/-- Witness for C9 at a concrete server issue list (one eval issue, one
SQL-concatenation issue). -/
theorem serverSecurity_no_severity_witness :
    (∀ i ∈ [(⟨8, "Dangerous '" ++ "eval" ++ "()' usage detected at line " ++
          jsLineText (some 3) ++
          ". This can execute arbitrary code and is a major security risk.",
          none⟩ : Issue),
        ⟨4, "Potential SQL injection: user input concatenated with SQL at line " ++
          jsLineText (some 7) ++ ". Use parameterized queries.", none⟩],
      ServerSecurityIssue i) ∧
    ([(⟨8, "Dangerous '" ++ "eval" ++ "()' usage detected at line " ++
          jsLineText (some 3) ++
          ". This can execute arbitrary code and is a major security risk.",
          none⟩ : Issue),
        ⟨4, "Potential SQL injection: user input concatenated with SQL at line " ++
          jsLineText (some 7) ++ ". Use parameterized queries.", none⟩].filter
        (fun i => i.severity == some Severity.CRITICAL)) = [] := by
  have hall : ∀ i ∈ [(⟨8, "Dangerous '" ++ "eval" ++ "()' usage detected at line " ++
        jsLineText (some 3) ++
        ". This can execute arbitrary code and is a major security risk.",
        none⟩ : Issue),
      ⟨4, "Potential SQL injection: user input concatenated with SQL at line " ++
        jsLineText (some 7) ++ ". Use parameterized queries.", none⟩],
      ServerSecurityIssue i := by
    intro i hi
    simp only [List.mem_cons, List.not_mem_nil, or_false] at hi
    rcases hi with rfl | rfl
    · exact ServerSecurityIssue.evalCall "eval" (some 3) (Or.inl rfl)
    · exact ServerSecurityIssue.sqlConcat (some 7)
  exact ⟨hall, (serverSecurity_no_severity _ hall).2.1⟩

end DevReview
